import Mathlib

/-!
Verification of the intent-classification core of the admin console
repository: `src/tambo/intentPolicy.ts` and `src/tambo/intentClassifier.ts`.

Queries are modelled as `List Char`. The JavaScript regular expressions in
`INTENT_PATTERNS` all have the restricted shape
`\bG1[\b] .* \bG2[\b] .* ...` where each `Gi` is an alternation of literal
words (the `s?` suffixes are expanded into explicit alternatives, which is
boolean-equivalent for `RegExp.test`). A pattern is therefore embedded as a
list of segments, each segment being an alternation of literal words with a
flag recording whether a `\b` assertion follows the group; consecutive
segments are separated by `.*` (any characters except line terminators).
`RegExp.test` searches for a match starting at any position.

String normalization (`toLowerCase().trim()`) is modelled at the ASCII
level, which covers every literal appearing in the pattern tables.
-/

/-- Word characters of the JavaScript regex class `\w`, i.e. `[A-Za-z0-9_]`. -/
def isWordChar (c : Char) : Bool :=
  (('a' ≤ c) && (c ≤ 'z')) || (('A' ≤ c) && (c ≤ 'Z')) ||
  (('0' ≤ c) && (c ≤ '9')) || (c == '_')

/-- Extension of `isWordChar` to an optional character; the edge of the
string counts as a non-word position. -/
def isWordOpt : Option Char → Bool
  | none => false
  | some c => isWordChar c

/-- The JavaScript `\b` assertion between two adjacent positions: it holds
when exactly one side is a word character. -/
def wordB (prev next : Option Char) : Bool :=
  isWordOpt prev != isWordOpt next

/-- Line terminators, which the JavaScript `.` does not match without the
`s` flag. -/
def isLineTerm (c : Char) : Bool :=
  (c == '\n') || (c == '\r') || (c.toNat == 0x2028) || (c.toNat == 0x2029)

/-- Match a literal word at the head of the text; return the rest on
success. -/
def litAt : List Char → List Char → Option (List Char)
  | [], s => some s
  | _ :: _, [] => none
  | c :: cs, d :: ds => if c == d then litAt cs ds else none

/-- Last character of a matched literal, falling back to the previous
character when the literal is empty. -/
def lastOpt (a : List Char) (prev : Option Char) : Option Char :=
  match a.getLast? with
  | some c => some c
  | none => prev

/-- Search for a match of `f` after consuming a (possibly empty) `.*` gap:
any run of non-line-terminator characters. `prev` is the character just
before the current position. -/
def gapSearch (f : Option Char → List Char → Bool) : Option Char → List Char → Bool
  | prev, s =>
    f prev s ||
      match s with
      | [] => false
      | c :: cs => !isLineTerm c && gapSearch f (some c) cs

/-- Unanchored search: try `f` at every position of the text, as
`RegExp.test` does for a pattern with no anchor. -/
def anySearch (f : Option Char → List Char → Bool) : Option Char → List Char → Bool
  | prev, s =>
    f prev s ||
      match s with
      | [] => false
      | c :: cs => anySearch f (some c) cs

/-- One pattern segment: a `\b`-preceded alternation of literal words,
optionally followed by another `\b` assertion. -/
structure Seg where
  alts : List (List Char)
  endB : Bool
deriving DecidableEq

/-- Match a list of segments starting exactly at the current position
(segments after the first may be preceded by a `.*` gap). -/
def matchSegs : List Seg → Option Char → List Char → Bool
  | [], _, _ => true
  | seg :: rest, prev, s =>
    seg.alts.any fun a =>
      wordB prev s.head? &&
        match litAt a s with
        | none => false
        | some r =>
          (!seg.endB || wordB (lastOpt a prev) r.head?) &&
            gapSearch (fun p t => matchSegs rest p t) (lastOpt a prev) r

/-- An embedded pattern: its JavaScript source text (the value of
`pattern.source`, used for `matchedPattern`) and its segments. -/
structure Pat where
  src : String
  segs : List Seg
deriving DecidableEq

/-- The embedding of `pattern.test(text)`: unanchored search from the start
of the text. -/
def rtest (p : Pat) (s : List Char) : Bool :=
  anySearch (fun pr t => matchSegs p.segs pr t) none s

/-- The closed enumeration `IntentCategory` of `intentPolicy.ts`. -/
inductive IntentCategory where
  | DEPLOYMENT_MONITORING
  | DEPLOYMENT_FAILURES
  | OPERATIONAL_APPROVALS
  | SYSTEM_HEALTH
  | UNSUPPORTED
deriving DecidableEq

/-- The runtime string value of each enumeration member (the TypeScript
enum is string-valued). -/
def IntentCategory.value : IntentCategory → String
  | .DEPLOYMENT_MONITORING => ("deployment_monitoring")
  | .DEPLOYMENT_FAILURES => ("deployment_failures")
  | .OPERATIONAL_APPROVALS => ("operational_approvals")
  | .SYSTEM_HEALTH => ("system_health")
  | .UNSUPPORTED => ("unsupported")

/-- `INTENT_COMPONENT_MAP` of `intentPolicy.ts`. -/
def INTENT_COMPONENT_MAP : IntentCategory → List String
  | .DEPLOYMENT_MONITORING => [("DeploymentTable")]
  | .DEPLOYMENT_FAILURES => [("DeploymentTable"), ("ActionPanel")]
  | .OPERATIONAL_APPROVALS => [("ApprovalQueue")]
  | .SYSTEM_HEALTH => [("SystemStatusSummary")]
  | .UNSUPPORTED => [("FallbackIntent")]

/-- Helper: a segment from the words of an alternation group and its
trailing-boundary flag. -/
def seg (ws : List String) (b : Bool) : Seg :=
  { alts := ws.map (fun w => w.toList), endB := b }

/-- `INTENT_PATTERNS` of `intentClassifier.ts`, with each regex embedded as
its segment list. -/
def INTENT_PATTERNS : IntentCategory → List Pat
  | .DEPLOYMENT_MONITORING =>
    [ { src := ("\\b(show|list|get|view|display)\\b.*\\b(deployment|deploy)"),
        segs := [seg [("show"), ("list"), ("get"), ("view"), ("display")] true,
                 seg [("deployment"), ("deploy")] false] },
      { src := ("\\bwhat\\b.*\\b(deployed|deployment)"),
        segs := [seg [("what")] true, seg [("deployed"), ("deployment")] false] },
      { src := ("\\brecent\\b.*\\bdeployment"),
        segs := [seg [("recent")] true, seg [("deployment")] false] },
      { src := ("\\bdeployment\\b.*\\b(history|status|list)"),
        segs := [seg [("deployment")] true,
                 seg [("history"), ("status"), ("list")] false] } ]
  | .DEPLOYMENT_FAILURES =>
    [ { src := ("\\b(failed|failure|broken|error)\\b.*\\bdeployment"),
        segs := [seg [("failed"), ("failure"), ("broken"), ("error")] true,
                 seg [("deployment")] false] },
      { src := ("\\bdeployment\\b.*\\b(failed|failure|broken|error)"),
        segs := [seg [("deployment")] true,
                 seg [("failed"), ("failure"), ("broken"), ("error")] false] },
      { src := ("\\bwhat\\b.*\\b(broke|failed|broken)"),
        segs := [seg [("what")] true,
                 seg [("broke"), ("failed"), ("broken")] false] },
      { src := ("\\bshow\\b.*\\b(failed|broken|error)"),
        segs := [seg [("show")] true,
                 seg [("failed"), ("broken"), ("error")] false] } ]
  | .OPERATIONAL_APPROVALS =>
    [ { src := ("\\b(approval|approve|pending|authorization)"),
        segs := [seg [("approval"), ("approve"), ("pending"), ("authorization")] false] },
      { src := ("\\bwhat\\b.*\\b(needs|need)\\b.*\\b(approval|approve)"),
        segs := [seg [("what")] true, seg [("needs"), ("need")] true,
                 seg [("approval"), ("approve")] false] },
      { src := ("\\bapproval\\b.*\\b(queue|list|pending)"),
        segs := [seg [("approval")] true,
                 seg [("queue"), ("list"), ("pending")] false] } ]
  | .SYSTEM_HEALTH =>
    [ { src := ("\\b(system|service|health|status|uptime)"),
        segs := [seg [("system"), ("service"), ("health"), ("status"), ("uptime")] false] },
      { src := ("\\b(how|show)\\b.*\\b(services?|systems?)\\b.*\\b(doing|status|health)"),
        segs := [seg [("how"), ("show")] true,
                 seg [("services"), ("service"), ("systems"), ("system")] true,
                 seg [("doing"), ("status"), ("health")] false] },
      { src := ("\\bany\\b.*\\b(services?|systems?)\\b.*\\bdown"),
        segs := [seg [("any")] true,
                 seg [("services"), ("service"), ("systems"), ("system")] true,
                 seg [("down")] false] } ]
  | .UNSUPPORTED => []

/-- The whitespace class removed by JavaScript `String.prototype.trim`. -/
def isJsWhite (c : Char) : Bool :=
  (c == ' ') || (c == '\t') || (c == '\n') || (c == '\r') ||
  (c.toNat == 11) || (c.toNat == 12) || (c.toNat == 0xa0) ||
  (c.toNat == 0x1680) || ((0x2000 ≤ c.toNat) && (c.toNat ≤ 0x200a)) ||
  (c.toNat == 0x2028) || (c.toNat == 0x2029) || (c.toNat == 0x202f) ||
  (c.toNat == 0x205f) || (c.toNat == 0x3000) || (c.toNat == 0xfeff)

/-- JavaScript `trim`: drop whitespace from both ends. -/
def trimList (s : List Char) : List Char :=
  ((s.dropWhile isJsWhite).reverse.dropWhile isJsWhite).reverse

/-- The normalization step of `classifyIntent`:
`query.toLowerCase().trim()` (ASCII model of `toLowerCase`). -/
def normalizeQuery (q : List Char) : List Char :=
  trimList (q.map Char.toLower)

/-- The confidence tag of a `ClassificationResult`. -/
inductive Confidence where
  | high
  | medium
  | low
deriving DecidableEq

/-- The `ClassificationResult` record of `intentClassifier.ts`. The
timestamp is the value of `new Date().toISOString()` at the call, modelled
as a parameter of the classifier. -/
structure ClassificationResult where
  query : List Char
  detectedIntent : IntentCategory
  confidence : Confidence
  matchedPattern : Option String
  allowedComponents : List String
  timestamp : String
deriving DecidableEq

/-- The category priority order hard-coded in `classifyIntent`. -/
def priorityOrder : List IntentCategory :=
  [.DEPLOYMENT_FAILURES, .OPERATIONAL_APPROVALS, .SYSTEM_HEALTH,
   .DEPLOYMENT_MONITORING]

/-- The nested loops of `classifyIntent`: walk the categories in order and,
within a category, return the first pattern whose test succeeds. -/
def findRule (nq : List Char) : List IntentCategory → Option (IntentCategory × Pat)
  | [] => none
  | cat :: rest =>
    match (INTENT_PATTERNS cat).find? (fun p => rtest p nq) with
    | some p => some (cat, p)
    | none => findRule nq rest

/-- `classifyIntent` of `intentClassifier.ts`: normalize, search the
priority-ordered pattern tables, and build the result (the matched branch
or the `UNSUPPORTED` fallback). `now` is the timestamp of the call. -/
def classifyIntent (now : String) (query : List Char) : ClassificationResult :=
  let normalizedQuery := normalizeQuery query
  match findRule normalizedQuery priorityOrder with
  | some (intent, pat) =>
    { query := query
      detectedIntent := intent
      confidence := .high
      matchedPattern := some pat.src
      allowedComponents := INTENT_COMPONENT_MAP intent
      timestamp := now }
  | none =>
    { query := query
      detectedIntent := .UNSUPPORTED
      confidence := .high
      matchedPattern := none
      allowedComponents := INTENT_COMPONENT_MAP .UNSUPPORTED
      timestamp := now }

/-- `isComponentAllowedForIntent` of `intentClassifier.ts`:
`INTENT_COMPONENT_MAP[intent].includes(componentName)`. -/
def isComponentAllowedForIntent (componentName : String) (intent : IntentCategory) : Bool :=
  (INTENT_COMPONENT_MAP intent).contains componentName

/-- The priority-ordered flattened rule list: every (category, pattern)
pair, with categories in the priority order of `classifyIntent` and, within
a category, patterns in their declared order. -/
def flattenedRules : List (IntentCategory × Pat) :=
  priorityOrder.flatMap (fun c => (INTENT_PATTERNS c).map (fun p => (c, p)))

/-- Specification reading of the matching step (first-match-wins over the
priority-ordered rule list): the first rule of `flattenedRules` whose test
succeeds on the normalized query. Proved equivalent to the nested-loop
search `findRule` of the source. -/
def firstMatchSpec (nq : List Char) : Option (IntentCategory × Pat) :=
  flattenedRules.find? (fun cp => rtest cp.2 nq)

/-- The first pattern of the `SYSTEM_HEALTH` table: the bare keyword
alternation with no trailing boundary, so it fires on any normalized query
containing one of the five keywords at a word start. -/
def shKeywordPat : Pat :=
  { src := ("\\b(system|service|health|status|uptime)"),
    segs := [seg [("system"), ("service"), ("health"), ("status"), ("uptime")] false] }

/-- The string entries `logClassification` hands to the console sink: the
group header and one line per logged field, with the matched pattern line
only when a pattern matched. -/
def intentEmoji : IntentCategory → String
  | .DEPLOYMENT_MONITORING => ("chart")
  | .DEPLOYMENT_FAILURES => ("cross")
  | .OPERATIONAL_APPROVALS => ("check")
  | .SYSTEM_HEALTH => ("heart")
  | .UNSUPPORTED => ("warning")

/-- Rendering of a confidence tag, as it appears in the audit output. -/
def Confidence.tag : Confidence → String
  | .high => ("high")
  | .medium => ("medium")
  | .low => ("low")

/-- The audit record of one classification: the console lines written by
`logClassification` (group header, query, detected intent, confidence,
allowed components, and the matched pattern when present). -/
def logLines (r : ClassificationResult) : List String :=
  [intentEmoji r.detectedIntent ++ (" Intent Classification"),
   ("Query: ") ++ String.mk r.query,
   ("Detected Intent: ") ++ r.detectedIntent.value,
   ("Confidence: ") ++ r.confidence.tag,
   ("Allowed Components: ") ++ String.intercalate (", ") r.allowedComponents]
  ++ (match r.matchedPattern with
      | some p => [("Matched Pattern: ") ++ p]
      | none => [])

/-- `logClassification` with the console modelled as an injected sink that
may fail (`Except.error`): the record is rendered and handed to the sink,
and any sink failure propagates — the source contains no exception
handling. -/
def logClassification (sink : List String → Except String Unit) (r : ClassificationResult) :
    Except String Unit :=
  sink (logLines r)

/-- `classifyIntent` together with its audit emission, in source order: the
result record is computed, `logClassification` is called on it, and the
record is returned. A sink failure propagates out of the call because the
source wraps the emission in no try/catch. -/
def classifyIntentAudited (sink : List String → Except String Unit) (now : String)
    (q : List Char) : Except String ClassificationResult := do
  let result := classifyIntent now q
  logClassification sink result
  pure result

/-- Runtime error outcomes relevant to the policy-lookup boundary: the
TypeError a JavaScript member access on `undefined` raises, and the
`InvalidCategory` error the specification names. -/
inductive JsError where
  | typeError (msg : String)
  | invalidCategory (msg : String)
deriving DecidableEq

/-- Decide whether an outcome is an `InvalidCategory` failure. -/
def isInvalidCategoryError : Except JsError Bool → Bool
  | Except.error (JsError.invalidCategory _) => true
  | _ => false

/-- The five runtime string values of the `IntentCategory` enumeration. -/
def intentCategoryValues : List String :=
  [("deployment_monitoring"), ("deployment_failures"), ("operational_approvals"),
   ("system_health"), ("unsupported")]

/-- The runtime (type-erased) view of `INTENT_COMPONENT_MAP`: a JavaScript
object keyed by the five enum string values; reading any other key yields
`undefined`, modelled as `none`. -/
def INTENT_COMPONENT_MAP_runtime (key : String) : Option (List String) :=
  if key == ("deployment_monitoring") then some [("DeploymentTable")]
  else if key == ("deployment_failures") then some [("DeploymentTable"), ("ActionPanel")]
  else if key == ("operational_approvals") then some [("ApprovalQueue")]
  else if key == ("system_health") then some [("SystemStatusSummary")]
  else if key == ("unsupported") then some [("FallbackIntent")]
  else none

/-- The runtime view of `isComponentAllowedForIntent`, with the enum erased
to strings as TypeScript erases it: `INTENT_COMPONENT_MAP[intent]` is read,
and `allowed.includes(componentName)` is evaluated — which raises a
TypeError when the lookup produced `undefined`. The source contains no
explicit category check. -/
def isComponentAllowedForIntentRuntime (componentName : String) (intent : String) :
    Except JsError Bool :=
  match INTENT_COMPONENT_MAP_runtime intent with
  | none => Except.error (JsError.typeError ("allowed is undefined"))
  | some allowed => Except.ok (allowed.contains componentName)

/-- The apostrophe character, built from its code point so that query
literals containing it can be assembled from plain pieces. -/
def apos : Char := Char.ofNat 39

/-- Searching a pattern list tagged with a fixed category is the tagged
search of the pattern list. -/
theorem find?_pair_map (c : IntentCategory) (nq : List Char) (ps : List Pat) :
    (ps.map (fun p => (c, p))).find? (fun cp => rtest cp.2 nq)
      = (ps.find? (fun p => rtest p nq)).map (fun p => (c, p)) := by
  induction ps with
  | nil => rfl
  | cons p ps ih =>
    by_cases h : rtest p nq
    · simp [List.find?_cons_of_pos, h]
    · simp only [List.map_cons]
      rw [List.find?_cons_of_neg _ (by simpa using h),
        List.find?_cons_of_neg _ (by simpa using h), ih]

/-- The nested loops of `findRule` compute the first match of the
flattened, priority-ordered rule list. -/
theorem findRule_flat (nq : List Char) (cats : List IntentCategory) :
    findRule nq cats
      = ((cats.flatMap (fun c => (INTENT_PATTERNS c).map (fun p => (c, p)))).find?
          (fun cp => rtest cp.2 nq)) := by
  induction cats with
  | nil => rfl
  | cons c cs ih =>
    rw [List.flatMap_cons, List.find?_append, find?_pair_map]
    cases h : (INTENT_PATTERNS c).find? (fun p => rtest p nq) with
    | none => simp only [findRule, h, Option.map_none', Option.none_or]; exact ih
    | some p => simp only [findRule, h, Option.map_some', Option.or_some]

/-- `findRule` equals the specification-side first match. -/
theorem findRule_eq_firstMatchSpec (nq : List Char) :
    findRule nq priorityOrder = firstMatchSpec nq :=
  findRule_flat nq priorityOrder

/-- A category returned by `findRule` was among the searched categories. -/
theorem findRule_some_mem (nq : List Char) (cats : List IntentCategory)
    (c : IntentCategory) (p : Pat) (h : findRule nq cats = some (c, p)) : c ∈ cats := by
  induction cats with
  | nil => exact absurd h (by simp [findRule])
  | cons c0 cs ih =>
    simp only [findRule] at h
    cases hf : (INTENT_PATTERNS c0).find? (fun p => rtest p nq) with
    | none => rw [hf] at h; exact List.mem_cons_of_mem _ (ih h)
    | some p0 =>
      rw [hf] at h
      have : c0 = c := congrArg Prod.fst (Option.some.inj h)
      simp [this]

/-- `findRule` over the priority order fails exactly when every pattern of
every category fails on the normalized query. -/
theorem findRule_none_iff (nq : List Char) :
    findRule nq priorityOrder = none ↔
      ∀ cat : IntentCategory, ∀ p ∈ INTENT_PATTERNS cat, rtest p nq = false := by
  rw [findRule_flat, List.find?_eq_none]
  constructor
  · intro h cat p hp
    cases cat with
    | UNSUPPORTED => simp [INTENT_PATTERNS] at hp
    | DEPLOYMENT_MONITORING =>
      have := h (.DEPLOYMENT_MONITORING, p)
        (List.mem_flatMap.mpr ⟨.DEPLOYMENT_MONITORING, by decide,
          List.mem_map.mpr ⟨p, hp, rfl⟩⟩)
      simpa using this
    | DEPLOYMENT_FAILURES =>
      have := h (.DEPLOYMENT_FAILURES, p)
        (List.mem_flatMap.mpr ⟨.DEPLOYMENT_FAILURES, by decide,
          List.mem_map.mpr ⟨p, hp, rfl⟩⟩)
      simpa using this
    | OPERATIONAL_APPROVALS =>
      have := h (.OPERATIONAL_APPROVALS, p)
        (List.mem_flatMap.mpr ⟨.OPERATIONAL_APPROVALS, by decide,
          List.mem_map.mpr ⟨p, hp, rfl⟩⟩)
      simpa using this
    | SYSTEM_HEALTH =>
      have := h (.SYSTEM_HEALTH, p)
        (List.mem_flatMap.mpr ⟨.SYSTEM_HEALTH, by decide,
          List.mem_map.mpr ⟨p, hp, rfl⟩⟩)
      simpa using this
  · intro h cp hcp
    obtain ⟨c, _, hcp'⟩ := List.mem_flatMap.mp hcp
    obtain ⟨p, hp, rfl⟩ := List.mem_map.mp hcp'
    simpa using h c p hp

/-- C1: for every query, classifyIntent evaluates the categories in the
fixed priority order DEPLOYMENT_FAILURES, OPERATIONAL_APPROVALS,
SYSTEM_HEALTH, DEPLOYMENT_MONITORING and, within each category, its pattern
rules in declared order, returning the category and pattern of the first
matching rule (equivalently, the first match of the flattened
priority-ordered rule list) and the UNSUPPORTED fallback otherwise; in
particular the query show failed deployments classifies as
DEPLOYMENT_FAILURES, never DEPLOYMENT_MONITORING. -/
theorem classifyIntent_first_match_priority (now : String) (q : List Char) :
    ((classifyIntent now q).detectedIntent
        = (match firstMatchSpec (normalizeQuery q) with
           | some cp => cp.1
           | none => IntentCategory.UNSUPPORTED)
      ∧ (classifyIntent now q).matchedPattern
          = Option.map (fun cp => cp.2.src) (firstMatchSpec (normalizeQuery q)))
    ∧ ((classifyIntent ("ts") (("show failed deployments").toList)).detectedIntent
        = IntentCategory.DEPLOYMENT_FAILURES
      ∧ (classifyIntent ("ts") (("show failed deployments").toList)).detectedIntent
        ≠ IntentCategory.DEPLOYMENT_MONITORING) := by
  refine ⟨⟨?_, ?_⟩, by decide, by decide⟩ <;>
    rw [← findRule_eq_firstMatchSpec] <;>
    (cases hr : findRule (normalizeQuery q) priorityOrder with
     | none => simp [classifyIntent, hr]
     | some cp => obtain ⟨c, p⟩ := cp; simp [classifyIntent, hr])

/-- C2: classifyIntent is total: for every timestamp and every query text,
including the empty one, the detected intent is one of the five members of
the closed IntentCategory enumeration, and the allowed components are the
policy entry of that member. -/
theorem classifyIntent_total_closed_enum (now : String) (q : List Char) :
    (classifyIntent now q).detectedIntent ∈
      [IntentCategory.DEPLOYMENT_MONITORING, IntentCategory.DEPLOYMENT_FAILURES,
       IntentCategory.OPERATIONAL_APPROVALS, IntentCategory.SYSTEM_HEALTH,
       IntentCategory.UNSUPPORTED]
    ∧ (classifyIntent now q).allowedComponents
        = INTENT_COMPONENT_MAP (classifyIntent now q).detectedIntent := by
  constructor
  · have h : ∀ x : IntentCategory, x ∈
        [IntentCategory.DEPLOYMENT_MONITORING, IntentCategory.DEPLOYMENT_FAILURES,
         IntentCategory.OPERATIONAL_APPROVALS, IntentCategory.SYSTEM_HEALTH,
         IntentCategory.UNSUPPORTED] := by intro x; cases x <;> decide
    exact h _
  · cases hr : findRule (normalizeQuery q) priorityOrder with
    | none => simp [classifyIntent, hr]
    | some cp => obtain ⟨c, p⟩ := cp; simp [classifyIntent, hr]

/-- C3: classifyIntent returns UNSUPPORTED exactly when no pattern rule of
any category matches the normalized query, exactly in that case the matched
pattern is null, and in that case the allowed components are the fallback
list; the queries book a meeting and the empty string both fall through to
UNSUPPORTED with a null matched pattern. -/
theorem classifyIntent_unsupported_iff_no_match (now : String) (q : List Char) :
    ((classifyIntent now q).detectedIntent = IntentCategory.UNSUPPORTED ↔
       ∀ cat : IntentCategory, ∀ p ∈ INTENT_PATTERNS cat,
         rtest p (normalizeQuery q) = false)
    ∧ ((classifyIntent now q).detectedIntent = IntentCategory.UNSUPPORTED ↔
       (classifyIntent now q).matchedPattern = none)
    ∧ ((classifyIntent now q).detectedIntent = IntentCategory.UNSUPPORTED →
       (classifyIntent now q).allowedComponents = [("FallbackIntent")])
    ∧ ((classifyIntent now (("book a meeting").toList)).detectedIntent
        = IntentCategory.UNSUPPORTED
      ∧ (classifyIntent now (("book a meeting").toList)).matchedPattern = none)
    ∧ ((classifyIntent now ([])).detectedIntent = IntentCategory.UNSUPPORTED
      ∧ (classifyIntent now ([])).matchedPattern = none) := by
  have h1 : ∀ qq : List Char,
      (classifyIntent now qq).detectedIntent = IntentCategory.UNSUPPORTED ↔
        findRule (normalizeQuery qq) priorityOrder = none := by
    intro qq
    cases hr : findRule (normalizeQuery qq) priorityOrder with
    | none => simp [classifyIntent, hr]
    | some cp =>
      obtain ⟨c, p⟩ := cp
      have hc : c ∈ priorityOrder := findRule_some_mem _ _ _ _ hr
      have hne : c ≠ IntentCategory.UNSUPPORTED := by
        intro hEq; rw [hEq] at hc; exact absurd hc (by decide)
      simp [classifyIntent, hr, hne]
  have h2 : ∀ qq : List Char,
      (classifyIntent now qq).detectedIntent = IntentCategory.UNSUPPORTED ↔
        (classifyIntent now qq).matchedPattern = none := by
    intro qq
    cases hr : findRule (normalizeQuery qq) priorityOrder with
    | none => simp [classifyIntent, hr]
    | some cp =>
      obtain ⟨c, p⟩ := cp
      have hc : c ∈ priorityOrder := findRule_some_mem _ _ _ _ hr
      have hne : c ≠ IntentCategory.UNSUPPORTED := by
        intro hEq; rw [hEq] at hc; exact absurd hc (by decide)
      simp [classifyIntent, hr, hne]
  have hb : findRule (normalizeQuery (("book a meeting").toList)) priorityOrder
      = none := by decide
  have he : findRule (normalizeQuery ([])) priorityOrder = none := by decide
  refine ⟨(h1 q).trans (findRule_none_iff _), h2 q, ?_, ?_, ?_⟩
  · intro h
    have hn := (h1 q).mp h
    simp [classifyIntent, hn, INTENT_COMPONENT_MAP]
  · exact ⟨(h1 _).mpr hb, (h2 _).mp ((h1 _).mpr hb)⟩
  · exact ⟨(h1 _).mpr he, (h2 _).mp ((h1 _).mpr he)⟩

/-- C4: the five end-to-end scenarios: Show recent deployments maps to
DEPLOYMENT_MONITORING with the DeploymentTable component; the broken-query
maps to DEPLOYMENT_FAILURES with DeploymentTable and ActionPanel; the
approval query maps to OPERATIONAL_APPROVALS with ApprovalQueue; the
services-down query maps to SYSTEM_HEALTH with SystemStatusSummary; the
weather query maps to UNSUPPORTED with FallbackIntent. -/
theorem classifyIntent_end_to_end_scenarios :
    ((classifyIntent ("ts") (("Show recent deployments").toList)).detectedIntent
        = IntentCategory.DEPLOYMENT_MONITORING
      ∧ (classifyIntent ("ts") (("Show recent deployments").toList)).allowedComponents
        = [("DeploymentTable")])
    ∧ ((classifyIntent ("ts")
          ((("What").toList) ++ [apos] ++ (("s broken?").toList))).detectedIntent
        = IntentCategory.DEPLOYMENT_FAILURES
      ∧ (classifyIntent ("ts")
          ((("What").toList) ++ [apos] ++ (("s broken?").toList))).allowedComponents
        = [("DeploymentTable"), ("ActionPanel")])
    ∧ ((classifyIntent ("ts") (("What needs my approval?").toList)).detectedIntent
        = IntentCategory.OPERATIONAL_APPROVALS
      ∧ (classifyIntent ("ts") (("What needs my approval?").toList)).allowedComponents
        = [("ApprovalQueue")])
    ∧ ((classifyIntent ("ts") (("Any services down?").toList)).detectedIntent
        = IntentCategory.SYSTEM_HEALTH
      ∧ (classifyIntent ("ts") (("Any services down?").toList)).allowedComponents
        = [("SystemStatusSummary")])
    ∧ ((classifyIntent ("ts")
          ((("What").toList) ++ [apos] ++ (("s the weather?").toList))).detectedIntent
        = IntentCategory.UNSUPPORTED
      ∧ (classifyIntent ("ts")
          ((("What").toList) ++ [apos] ++ (("s the weather?").toList))).allowedComponents
        = [("FallbackIntent")]) := by
  decide

/-- C5: isComponentAllowedForIntent returns true exactly when the component
name is a member of the policy list of the category, and returns false for
a non-member without error; in particular ApprovalQueue is not allowed for
DEPLOYMENT_MONITORING while DeploymentTable is. -/
theorem isComponentAllowedForIntent_iff_member (componentName : String)
    (cat : IntentCategory) :
    (isComponentAllowedForIntent componentName cat = true ↔
      componentName ∈ INTENT_COMPONENT_MAP cat)
    ∧ isComponentAllowedForIntent ("ApprovalQueue")
        IntentCategory.DEPLOYMENT_MONITORING = false
    ∧ isComponentAllowedForIntent ("DeploymentTable")
        IntentCategory.DEPLOYMENT_MONITORING = true := by
  refine ⟨?_, by decide, by decide⟩
  simp [isComponentAllowedForIntent]

/-- C6: two queries with the same normalized form classify identically: the
detected intent and the matched pattern agree even when the timestamps of
the two calls differ. -/
theorem classifyIntent_normalization_determines (t1 t2 : String)
    (q1 q2 : List Char) (h : normalizeQuery q1 = normalizeQuery q2) :
    (classifyIntent t1 q1).detectedIntent = (classifyIntent t2 q2).detectedIntent
    ∧ (classifyIntent t1 q1).matchedPattern = (classifyIntent t2 q2).matchedPattern := by
  cases hr : findRule (normalizeQuery q2) priorityOrder with
  | none =>
    have hr1 : findRule (normalizeQuery q1) priorityOrder = none := by
      rw [h]; exact hr
    constructor <;> simp [classifyIntent, hr, hr1]
  | some cp =>
    obtain ⟨c, p⟩ := cp
    have hr1 : findRule (normalizeQuery q1) priorityOrder = some (c, p) := by
      rw [h]; exact hr
    constructor <;> simp [classifyIntent, hr, hr1]

/-- Witness for C6: the upper-case padded query and its normalized twin
classify to the same intent and pattern. -/
theorem classifyIntent_normalization_determines_witness :
    normalizeQuery (("  SHOW FAILED DEPLOYMENTS  ").toList)
      = normalizeQuery (("show failed deployments").toList)
    ∧ ((classifyIntent ("t1") (("  SHOW FAILED DEPLOYMENTS  ").toList)).detectedIntent
        = (classifyIntent ("t2") (("show failed deployments").toList)).detectedIntent
      ∧ (classifyIntent ("t1") (("  SHOW FAILED DEPLOYMENTS  ").toList)).matchedPattern
        = (classifyIntent ("t2") (("show failed deployments").toList)).matchedPattern) :=
  ⟨by decide, classifyIntent_normalization_determines ("t1") ("t2") _ _ (by decide)⟩

/-- C7: every classification, matched or fallback, carries confidence high;
the values medium and low are never produced. -/
theorem classifyIntent_confidence_always_high (now : String) (q : List Char) :
    (classifyIntent now q).confidence = Confidence.high
    ∧ (classifyIntent now q).confidence ≠ Confidence.medium
    ∧ (classifyIntent now q).confidence ≠ Confidence.low := by
  have h : (classifyIntent now q).confidence = Confidence.high := by
    cases hr : findRule (normalizeQuery q) priorityOrder with
    | none => simp [classifyIntent, hr]
    | some cp => obtain ⟨c, p⟩ := cp; simp [classifyIntent, hr]
  refine ⟨h, ?_, ?_⟩ <;> rw [h] <;> decide

/-- Counterexample for C8: with a sink that raises on emission, the audited
classifier propagates the failure instead of returning the classification
normally — the source wraps the emission in no exception handler. -/
theorem classifyIntentAudited_sink_failure_propagates :
    classifyIntentAudited (fun _ => Except.error ("sink failure")) ("ts")
        (("show failed deployments").toList)
      = Except.error ("sink failure") := by
  rfl

/-- C8 as amended: the audit emission never alters the returned result —
whenever the sink accepts the emission, the audited classifier returns
exactly the classification computed before logging, whatever the sink is —
but an emission failure is not caught and propagates to the caller. -/
theorem classifyIntentAudited_ok_of_sink_ok
    (sink : List String → Except String Unit) (now : String) (q : List Char)
    (h : sink (logLines (classifyIntent now q)) = Except.ok ()) :
    classifyIntentAudited sink now q = Except.ok (classifyIntent now q) := by
  simp [classifyIntentAudited, logClassification, h]

/-- Witness for the amended C8: an accepting sink yields the pure
classification unchanged. -/
theorem classifyIntentAudited_ok_of_sink_ok_witness :
    classifyIntentAudited (fun _ => Except.ok ()) ("ts")
        (("show failed deployments").toList)
      = Except.ok (classifyIntent ("ts") (("show failed deployments").toList)) :=
  classifyIntentAudited_ok_of_sink_ok (fun _ => Except.ok ()) ("ts")
    (("show failed deployments").toList) rfl

/-- C9: the first SYSTEM_HEALTH pattern is the bare keyword rule, and any
query it matches that triggers no DEPLOYMENT_FAILURES and no
OPERATIONAL_APPROVALS rule classifies as SYSTEM_HEALTH, because
SYSTEM_HEALTH precedes DEPLOYMENT_MONITORING in the priority order. -/
theorem classifyIntent_keyword_system_health (now : String) (q : List Char)
    (hsh : rtest shKeywordPat (normalizeQuery q) = true)
    (hF : ∀ p ∈ INTENT_PATTERNS IntentCategory.DEPLOYMENT_FAILURES,
      rtest p (normalizeQuery q) = false)
    (hA : ∀ p ∈ INTENT_PATTERNS IntentCategory.OPERATIONAL_APPROVALS,
      rtest p (normalizeQuery q) = false) :
    (INTENT_PATTERNS IntentCategory.SYSTEM_HEALTH).head? = some shKeywordPat
    ∧ (classifyIntent now q).detectedIntent = IntentCategory.SYSTEM_HEALTH := by
  refine ⟨rfl, ?_⟩
  have hFn : (INTENT_PATTERNS IntentCategory.DEPLOYMENT_FAILURES).find?
      (fun p => rtest p (normalizeQuery q)) = none :=
    List.find?_eq_none.mpr (fun p hp => by simp [hF p hp])
  have hAn : (INTENT_PATTERNS IntentCategory.OPERATIONAL_APPROVALS).find?
      (fun p => rtest p (normalizeQuery q)) = none :=
    List.find?_eq_none.mpr (fun p hp => by simp [hA p hp])
  have hhead : INTENT_PATTERNS IntentCategory.SYSTEM_HEALTH
      = shKeywordPat :: (INTENT_PATTERNS IntentCategory.SYSTEM_HEALTH).tail := rfl
  have hfind : (INTENT_PATTERNS IntentCategory.SYSTEM_HEALTH).find?
      (fun p => rtest p (normalizeQuery q)) = some shKeywordPat := by
    rw [hhead]; exact List.find?_cons_of_pos _ hsh
  have hr : findRule (normalizeQuery q) priorityOrder
      = some (IntentCategory.SYSTEM_HEALTH, shKeywordPat) := by
    simp only [priorityOrder, findRule, hFn, hAn, hfind]
  simp [classifyIntent, hr]

/-- Witness for C9: deployment status classifies as SYSTEM_HEALTH even
though a DEPLOYMENT_MONITORING rule also matches it. -/
theorem classifyIntent_keyword_system_health_witness :
    ((INTENT_PATTERNS IntentCategory.SYSTEM_HEALTH).head? = some shKeywordPat
      ∧ (classifyIntent ("ts") (("deployment status").toList)).detectedIntent
        = IntentCategory.SYSTEM_HEALTH)
    ∧ (INTENT_PATTERNS IntentCategory.DEPLOYMENT_MONITORING).any
        (fun p => rtest p (normalizeQuery (("deployment status").toList))) = true :=
  ⟨classifyIntent_keyword_system_health ("ts") (("deployment status").toList)
      (by decide) (by decide) (by decide),
   by decide⟩

/-- Counterexample for C10: at the policy-lookup boundary the runtime model
of isComponentAllowedForIntent neither succeeds nor raises an
InvalidCategory error for a value outside the enumeration: the lookup
yields undefined and the membership call raises a TypeError. -/
theorem isComponentAllowedForIntentRuntime_typeError_counterexample :
    isComponentAllowedForIntentRuntime ("DeploymentTable") ("bogus_category")
      = Except.error (JsError.typeError ("allowed is undefined"))
    ∧ isInvalidCategoryError
        (isComponentAllowedForIntentRuntime ("DeploymentTable") ("bogus_category"))
      = false := by
  constructor <;> rfl

/-- C10 as amended: on the five enumeration values the runtime lookup
succeeds and agrees with the typed membership check; on any value outside
the enumeration there is no explicit check and the operation fails with a
TypeError, never an InvalidCategory error. -/
theorem isComponentAllowedForIntentRuntime_behavior (componentName : String)
    (cat : IntentCategory) (s : String) (hs : s ∉ intentCategoryValues) :
    isComponentAllowedForIntentRuntime componentName cat.value
      = Except.ok (isComponentAllowedForIntent componentName cat)
    ∧ isComponentAllowedForIntentRuntime componentName s
      = Except.error (JsError.typeError ("allowed is undefined")) := by
  constructor
  · cases cat <;>
      simp [isComponentAllowedForIntentRuntime, INTENT_COMPONENT_MAP_runtime,
        IntentCategory.value, isComponentAllowedForIntent, INTENT_COMPONENT_MAP]
  · simp only [intentCategoryValues, List.mem_cons, List.not_mem_nil, or_false,
      not_or] at hs
    obtain ⟨h1, h2, h3, h4, h5⟩ := hs
    simp [isComponentAllowedForIntentRuntime, INTENT_COMPONENT_MAP_runtime,
      h1, h2, h3, h4, h5]

/-- Witness for the amended C10: a value outside the enumeration produces
the TypeError while an enumeration value succeeds. -/
theorem isComponentAllowedForIntentRuntime_behavior_witness :
    (("bogus_category") ∉ intentCategoryValues)
    ∧ (isComponentAllowedForIntentRuntime ("DeploymentTable")
          IntentCategory.DEPLOYMENT_MONITORING.value
        = Except.ok (isComponentAllowedForIntent ("DeploymentTable")
            IntentCategory.DEPLOYMENT_MONITORING)
      ∧ isComponentAllowedForIntentRuntime ("DeploymentTable") ("bogus_category")
        = Except.error (JsError.typeError ("allowed is undefined"))) :=
  ⟨by decide, isComponentAllowedForIntentRuntime_behavior ("DeploymentTable")
      IntentCategory.DEPLOYMENT_MONITORING ("bogus_category") (by decide)⟩
